import Mathlib

/-!
Verification of the Linkclump browser-extension repository
(carry0987/Linkclump) against its natural-language specification.

Shallow embedding: each definition below translates one function of the
TypeScript source into Lean.  JavaScript runtime values that can carry
more than one dynamic type are modelled by the `JSVal` inductive;
`null`/`undefined`-able parameters are modelled by `Option`; the
asynchronous storage and messaging APIs are modelled by explicit state
passing (a `StorageState` record for `chrome.storage`, an event list for
the promise/timer race of the message bus).
-/

/-- A dynamic JavaScript value, as far as the code under verification
inspects one: `typeof` distinctions (`undefined`, `null`, boolean,
number, string), arrays and plain objects (an object is a field list in
insertion order). -/
inductive JSVal where
  | undef : JSVal
  | null : JSVal
  | bool : Bool → JSVal
  | num : Int → JSVal
  | str : String → JSVal
  | arr : List JSVal → JSVal
  | obj : List (String × JSVal) → JSVal

/-- JavaScript truthiness of a `JSVal`: `undefined`, `null`, `false`,
`0` and `""` are falsy; every array and object is truthy. -/
def jsTruthy : JSVal → Bool
  | .undef => false
  | .null => false
  | .bool b => b
  | .num n => decide (n ≠ 0)
  | .str s => decide (s ≠ "")
  | .arr _ => true
  | .obj _ => true

/-- `typeof v === 'object'` in JavaScript: true for `null`, arrays and
plain objects. -/
def jsIsObjectType : JSVal → Bool
  | .null => true
  | .arr _ => true
  | .obj _ => true
  | _ => false

/-- `typeof v === 'string'`. -/
def jsIsString : JSVal → Bool
  | .str _ => true
  | _ => false

mutual

/-- The JavaScript `String()` coercion, restricted to the value shapes
the migration code can meet (`parseVersion` applies it to non-string
stored versions): an array prints as its comma-joined elements, an
object as `[object Object]`. -/
def jsToString : JSVal → String
  | .undef => "undefined"
  | .null => "null"
  | .bool true => "true"
  | .bool false => "false"
  | .num n => toString n
  | .str s => s
  | .arr xs => jsListToString xs
  | .obj _ => "[object Object]"

/-- Comma-joined rendering of an array's elements (JS `Array.toString`). -/
def jsListToString : List JSVal → String
  | [] => ""
  | [x] => jsToString x
  | x :: y :: xs => jsToString x ++ "," ++ jsListToString (y :: xs)

end

/-! ### Character-list string primitives

The JavaScript string operations used by the source
(`split`, `trim`, `parseInt`, `toLowerCase`, prefix tests) are
implemented here by structural recursion over `List Char`, so that
every proof below can be checked by kernel reduction. -/

/-- `String.prototype.split(sep)` on character lists: splitting the
empty string yields one empty field, and a trailing separator yields a
trailing empty field, as in JavaScript. -/
def splitCharList (sep : Char) : List Char → List (List Char)
  | [] => [[]]
  | c :: rest =>
    let r := splitCharList sep rest
    if c = sep then [] :: r
    else
      match r with
      | [] => [[c]]
      | g :: gs => (c :: g) :: gs

/-- Split a string on a one-character separator (JS `s.split(sep)`). -/
def splitJS (sep : Char) (s : String) : List String :=
  (splitCharList sep s.data).map (fun cs => ⟨cs⟩)

/-- The whitespace characters relevant to JS `trim`/`parseInt` for the
inputs in this repository. -/
def isSpaceJS (c : Char) : Bool :=
  c = ' ' ∨ c = '\t' ∨ c = '\n' ∨ c = '\r'

/-- `String.prototype.trim()`: drop whitespace from both ends. -/
def trimJS (s : String) : String :=
  ⟨((s.data.dropWhile isSpaceJS).reverse.dropWhile isSpaceJS).reverse⟩

/-- Accumulate a run of decimal digits into a natural number. -/
def digitsToNat (ds : List Char) : Nat :=
  ds.foldl (fun a c => a * 10 + (c.toNat - '0'.toNat)) 0

/-- JS `parseInt(s, 10)`: skip leading whitespace, read an optional
sign and then the longest run of leading digits; `none` models `NaN`
(no digits at all). -/
def parseIntJS (s : String) : Option Int :=
  let t := s.data.dropWhile isSpaceJS
  let signed : Int × List Char :=
    match t with
    | '-' :: rest => (-1, rest)
    | '+' :: rest => (1, rest)
    | _ => (1, t)
  let ds := signed.2.takeWhile Char.isDigit
  if ds.isEmpty then none
  else some (signed.1 * (digitsToNat ds : Int))

/-- ASCII lower-casing of one character (JS `toLowerCase` restricted to
the ASCII range the URL code meets). -/
def lowerAscii (c : Char) : Char :=
  if 'A' ≤ c ∧ c ≤ 'Z' then Char.ofNat (c.toNat + 32) else c

/-- Lower-case a string, ASCII-wise. -/
def toLowerJS (s : String) : String := ⟨s.data.map lowerAscii⟩

/-- `pre.isPrefixOf l` on character lists (models an anchored `^…`
regular-expression test and `String.startsWith`). -/
def listStartsWith : List Char → List Char → Bool
  | [], _ => true
  | _ :: _, [] => false
  | p :: ps, c :: cs => p = c && listStartsWith ps cs

/-- String prefix test built on `listStartsWith`. -/
def startsWithJS (s pre : String) : Bool := listStartsWith pre.data s.data

/-! ## `src/shared/lib/utils.ts` -/

/-- A well-formed detected link: string `url` and string `title`
(the `Link` type of `src/shared/types`). -/
structure Link where
  url : String
  title : String
deriving DecidableEq

/-- `formatLink` of `src/shared/lib/utils.ts`: one of the seven copy
formats, with the `default` branch rendering the bare URL. -/
def formatLink (link : Link) (format : Nat) : String :=
  match format with
  | 0 => link.title ++ "\t" ++ link.url ++ "\n"
  | 1 => link.url ++ "\n"
  | 2 => link.url ++ " "
  | 3 => link.title ++ "\n"
  | 4 => "<a href=\"" ++ link.url ++ "\">" ++ link.title ++ "</a>\n"
  | 5 => "<li><a href=\"" ++ link.url ++ "\">" ++ link.title ++ "</a></li>\n"
  | 6 => "[" ++ link.title ++ "](" ++ link.url ++ ")\n"
  | _ => link.url ++ "\n"

/-- The seen-set loop of `uniqueLinks`: `links.filter` with a mutable
`Set` of already-seen URLs, here passed explicitly. -/
def uniqueLinksGo (seen : List String) : List Link → List Link
  | [] => []
  | l :: ls =>
    if l.url ∈ seen then uniqueLinksGo seen ls
    else l :: uniqueLinksGo (l.url :: seen) ls

/-- `uniqueLinks` of `src/shared/lib/utils.ts`: keep each URL's first
occurrence. -/
def uniqueLinks (links : List Link) : List Link := uniqueLinksGo [] links

/-- Deduplication as the specification words it: keep an entry, then
deduplicate the remainder with every later entry of the same URL
removed.  Used as the independent reference for `uniqueLinks`. -/
def dedupByUrlSpec : List Link → List Link
  | [] => []
  | l :: ls => l :: dedupByUrlSpec (ls.filter (fun x => x.url ≠ l.url))
termination_by l => l.length
decreasing_by
  simp_wf
  exact Nat.lt_succ_of_le (List.length_filter_le _ _)

/-! ## The Linkclump domain model (`src/shared/config.ts`) -/

/-- The four action effects (`ActionType`). -/
inductive ActionType where
  | tabs | window | copy | bookmark
deriving DecidableEq

/-- `ActionOptions`: the sparse per-action option record.  `ignore` is
kept as a list of dynamic values because stored data may still hold the
legacy `[mode, commaSeparatedString]` shape that the migration rewrites. -/
structure ActionOptionsM where
  smart : Option Bool := none
  ignore : Option (List JSVal) := none
  delay : Option Int := none
  close : Option Int := none
  block : Option Bool := none
  reverse : Option Bool := none
  «end» : Option Bool := none
  unfocus : Option Bool := none
  copy : Option Nat := none

/-- `Action`: one trigger-to-effect rule. -/
structure ActionM where
  mouse : Nat
  key : String
  action : ActionType
  color : String
  options : ActionOptionsM

/-- `Settings`: the action map (insertion order preserved, as `for…in`
iteration order of the record) and the blocked-site pattern list. -/
structure SettingsM where
  actions : List (String × ActionM)
  blocked : List String

/-- Truthiness of an optional boolean option (`undefined` is falsy). -/
def optTrue : Option Bool → Bool
  | some b => b
  | none => false

/-! ## The background activate handler (`src/background/linkclump.ts`) -/

/-- One element of the activation payload's `urls` array before
validation: the element itself may be `undefined`, and its `url` and
`title` fields are dynamic values. -/
structure RawLink where
  url : JSVal
  title : JSVal

/-- The `LINKCLUMP_ACTIVATE` payload: both fields may be missing
(`payload?.urls` / `payload?.setting` guards). -/
structure PayloadM where
  urls : Option (List (Option RawLink))
  setting : Option ActionM

/-- The filter of the activate handler: keep entries that are defined
and have string `url` and string `title`, projected to `Link`. -/
def filterWellFormed (urls : List (Option RawLink)) : List Link :=
  urls.filterMap (fun l =>
    match l with
    | some rl =>
      match rl.url, rl.title with
      | .str u, .str t => some ⟨u, t⟩
      | _, _ => none
    | none => none)

/-- Result of the activate handler: the `{ok}` response and, when the
handler reaches a per-action dispatch, the link list handed to it
(`none` = no action performed, no tab/window/bookmark/message effect). -/
structure ActivateResult where
  ok : Bool
  dispatched : Option (List Link)
deriving DecidableEq

/-- The `bus.on(MSG.LINKCLUMP_ACTIVATE)` handler of
`src/background/linkclump.ts`: payload guard, well-formedness filter,
duplicate blocking, empty check, order reversal, then dispatch. -/
def activateHandler (payload : Option PayloadM) : ActivateResult :=
  match payload with
  | none => ⟨false, none⟩
  | some p =>
    match p.urls, p.setting with
    | some urls, some setting =>
      let l1 := filterWellFormed urls
      let l2 := if optTrue setting.options.block then uniqueLinks l1 else l1
      if l2.isEmpty then ⟨true, none⟩
      else ⟨true, some (if optTrue setting.options.reverse then l2.reverse else l2)⟩
    | _, _ => ⟨false, none⟩

/-- `handleCopy`'s text construction: concatenate `formatLink` over the
links (`setting.options.copy || 0` meaning format 0 when the option is
absent, 0 being the only falsy format), wrapping format 5 in one
`<ul>…</ul>`. -/
def handleCopyText (urls : List Link) (copyOpt : Option Nat) : String :=
  let copyFormat := copyOpt.getD 0
  let text := urls.foldl (fun acc l => acc ++ formatLink l copyFormat) ""
  if copyFormat = 5 then "<ul>\n" ++ text ++ "</ul>\n" else text

/-! ## Restricted-URL policy
(`src/shared/constants.ts` and `isRestrictedUrl` of the background
runtime module) -/

/-- `RESTRICTED.schemes` of `src/shared/constants.ts`. -/
def restrictedSchemes : List String :=
  ["chrome", "chrome-extension", "chrome-untrusted", "devtools", "edge", "about"]

/-- The scheme extraction `raw.split(':', 1)[0]?.toLowerCase()`: the
(lower-cased) text before the first colon, the whole string when there
is no colon. -/
def schemeOf (raw : String) : String :=
  toLowerJS ⟨raw.data.takeWhile (· ≠ ':')⟩

/-- Model of the host `new URL(raw)` constructor for the
`scheme://host/path` inputs this policy feeds it: requires a `//` after
the scheme and a nonempty host, lower-cases protocol and host, defaults
the pathname to `/`; parse failure (as for `https://` with no host) is
`none`.  Returns `(protocol-with-colon, host, pathname)`. -/
def parseHttpUrl (raw : String) : Option (String × String × String) :=
  let cs := raw.data
  let schemeCs := cs.takeWhile (· ≠ ':')
  let rest := cs.drop (schemeCs.length + 1)
  if listStartsWith ['/', '/'] rest then
    let hostPath := rest.drop 2
    let host := hostPath.takeWhile (· ≠ '/')
    let path := hostPath.drop host.length
    if host.isEmpty then none
    else some (toLowerJS ⟨schemeCs⟩ ++ ":", toLowerJS ⟨host⟩,
               if path.isEmpty then "/" else ⟨path⟩)
  else none

/-- The `RESTRICTED.hosts` regular expressions
(`^(?:https?:\/\/)?chrome\.google\.com\/webstore\/?` and the
`microsoftedge.microsoft.com/addons` analogue, both case-insensitive):
as anchored prefix patterns with an optional scheme, their `test` on
the normalized URL is this prefix check. -/
def restrictedHostMatch (normalized : String) : Bool :=
  let t := toLowerJS normalized
  startsWithJS t "https://chrome.google.com/webstore" ||
  startsWithJS t "http://chrome.google.com/webstore" ||
  startsWithJS t "chrome.google.com/webstore" ||
  startsWithJS t "https://microsoftedge.microsoft.com/addons" ||
  startsWithJS t "http://microsoftedge.microsoft.com/addons" ||
  startsWithJS t "microsoftedge.microsoft.com/addons"

/-- `isRestrictedUrl` of the background runtime module: absent or empty
URL restricted; disallowed scheme restricted; for `http`/`https`,
normalize to `protocol//host/pathname` and test the restricted-host
patterns, treating a URL-parse failure as restricted; any other scheme
restricted (default-deny). -/
def isRestrictedUrl (raw : Option String) : Bool :=
  match raw with
  | none => true
  | some r =>
    if r = "" then true
    else
      let scheme := schemeOf r
      if restrictedSchemes.contains scheme then true
      else if scheme = "http" ∨ scheme = "https" then
        match parseHttpUrl r with
        | some (proto, host, path) =>
          restrictedHostMatch (proto ++ "//" ++ host ++ path)
        | none => true
      else true

/-! ## Content-script selection engine (`Core` of the content script) -/

/-- `Core.allowSelection`: with the in-memory `settings` snapshot, the
last-seen mouse button (`null` before any mouse-down) and the last-seen
key (`null` when no key is held — `removeKey` resets it to `null`),
scan the action map in iteration order for an action whose `mouse`
strictly equals the pressed button and whose `key` strictly equals the
pressed key.  The strict `===` against a possibly-`null` `keyPressed`
is modelled by the `Option` match: a `null` key never equals a string
key. -/
def allowSelection (settings : Option SettingsM) (mouseButton : Option Nat)
    (keyPressed : Option String) : Bool :=
  match settings, mouseButton with
  | some s, some mb =>
    s.actions.any (fun p =>
      decide (p.2.mouse = mb) &&
      (match keyPressed with
       | some k => decide (p.2.key = k)
       | none => false))
  | _, _ => false

/-! ## Settings manager (`SettingManager.load` of `src/shared/lib/setting.ts`) -/

/-- The write `init()` performs: `{settings: defaults, version: currentVersion}`
in one `setAll`. -/
def initWrite (d : JSVal) (cv : String) : JSVal × Option (List (String × JSVal)) :=
  (d, some [("settings", d), ("version", JSVal.str cv)])

/-- The check `!ver || typeof ver !== 'string'` negated: the stored
version is truthy and a string. -/
def verIsTruthyString : Option JSVal → Bool
  | some v => jsTruthy v && jsIsString v
  | none => false

/-- `SettingManager.load()`: given the defaults factory's output `d`,
the current version `cv`, whether the storage read throws, and the
stored `version` and `settings` values (`none` = key absent), return
the value `load` resolves with together with the write it performs
(`none` = no write; the write is `init()`'s combined
defaults-plus-version write). -/
def loadSettings (d : JSVal) (cv : String) (readThrows : Bool)
    (ver raw : Option JSVal) : JSVal × Option (List (String × JSVal)) :=
  if readThrows then initWrite d cv
  else if !(verIsTruthyString ver) then initWrite d cv
  else
    match raw with
    | some r => if jsTruthy r && jsIsObjectType r then (r, none) else initWrite d cv
    | none => initWrite d cv

/-! ## Legacy-ignore settings migration (`MySettingManager.migrate` of
`src/shared/config.ts`) -/

/-- Whether an `ignore` value is in the legacy
`[mode, commaSeparatedString]` shape the migration rewrites:
`ignore.length === 2 && typeof ignore[1] === 'string'`. -/
def isLegacyIgnoreShape : List JSVal → Bool
  | [_, .str _] => true
  | _ => false

/-- The rewritten `ignore` value: split the keyword string on commas,
trim each token, drop empty tokens; keep the bare `[mode]` when no
keyword survives. -/
def newIgnore (mode : JSVal) (s : String) : List JSVal :=
  let keywords := ((splitJS ',' s).map trimJS).filter (· ≠ "")
  if keywords.isEmpty then [mode] else mode :: keywords.map JSVal.str

/-- The per-action body of `MySettingManager.migrate`: when the action
has an `ignore` value (arrays are always truthy) in the legacy shape,
rebuild the action with the rewritten `ignore`; otherwise leave the
action untouched. -/
def migrateAction (a : ActionM) : ActionM :=
  match a.options.ignore with
  | some ig =>
    match ig with
    | [mode, .str s] =>
      { a with options := { a.options with ignore := some (newIgnore mode s) } }
    | _ => a
  | none => a

/-- `MySettingManager.migrate`: rewrite every action of the settings
record. -/
def migrateSettings (s : SettingsM) : SettingsM :=
  { s with actions := s.actions.map (fun p => (p.1, migrateAction p.2)) }

/-! ## Version comparison and the migration runner
(`parseVersion`, `compareVersions`, `runMigrations` of
`src/shared/lib/migration.ts`) -/

/-- `parseVersion`: coerce to string (`String(version)` for non-string
input), split on dots, `parseInt(n, 10) || 0` per component. -/
def parseVersion (v : JSVal) : List Int :=
  (splitJS '.' (jsToString v)).map (fun s => (parseIntJS s).getD 0)

/-- The tail of the `compareVersions` loop once the first version has
run out of components: each missing component reads as 0. -/
def cmpZeros : List Int → Int
  | [] => 0
  | b :: bs => if 0 < b then -1 else if b < 0 then 1 else cmpZeros bs

/-- The component loop of `compareVersions`: compare up to the longer
length, missing components read as 0. -/
def cmpParts : List Int → List Int → Int
  | [], bs => cmpZeros bs
  | a :: as, [] =>
    if a < 0 then -1 else if 0 < a then 1 else cmpParts as []
  | a :: as, b :: bs =>
    if a < b then -1 else if b < a then 1 else cmpParts as bs

/-- `compareVersions(a, b)`: −1, 0 or 1. -/
def compareVersions (a b : JSVal) : Int :=
  cmpParts (parseVersion a) (parseVersion b)

/-- The two storage areas a migration may touch (`sync` and `local`),
each an insertion-ordered key/value list. -/
structure StorageState where
  sync : List (String × JSVal)
  localArea : List (String × JSVal)

/-- `chrome.storage` single-key write: replace the key in place or
append it. -/
def setKey : List (String × JSVal) → String → JSVal → List (String × JSVal)
  | [], k, v => [(k, v)]
  | (k', v') :: rest, k, v =>
    if k' = k then (k, v) :: rest else (k', v') :: setKey rest k v

/-- `chrome.storage` single-key read. -/
def getKey : List (String × JSVal) → String → Option JSVal
  | [], _ => none
  | (k', v') :: rest, k => if k' = k then some v' else getKey rest k

/-- A returned migration patch: key/value pairs for `sync` and `local`
(`chrome.storage.<area>.set(result.<area>)`); an absent area is the
empty list, whose set is a no-op. -/
structure MigResult where
  syncPatch : List (String × JSVal)
  localPatch : List (String × JSVal)

/-- Apply a multi-key `set` to one area. -/
def applyKeys (m : List (String × JSVal)) (patch : List (String × JSVal)) :
    List (String × JSVal) :=
  patch.foldl (fun acc kv => setKey acc kv.1 kv.2) m

/-- Apply a migration's returned patch to storage. -/
def applyResult (st : StorageState) (r : MigResult) : StorageState :=
  { sync := applyKeys st.sync r.syncPatch,
    localArea := applyKeys st.localArea r.localPatch }

/-- One `Migration` entry: a version tag and an asynchronous step that
sees the migration context (current version, stored version) and the
storage it may read through the context accessors, and either returns
an optional patch or throws. -/
structure MigrationM where
  version : String
  migrate : String → Option JSVal → StorageState → Except String (Option MigResult)

/-- `getStoredVersion`: `(await kv.get('sync','version')) || null` —
an absent or falsy stored value is `null`. -/
def getStoredVersion (st : StorageState) : Option JSVal :=
  match getKey st.sync "version" with
  | some v => if jsTruthy v then some v else none
  | none => none

/-- `kv.set('sync', 'version', currentVersion)`. -/
def setVersion (st : StorageState) (cur : String) : StorageState :=
  { st with sync := setKey st.sync "version" (JSVal.str cur) }

/-- The migration loop shared by the fresh-install and upgrade paths of
`runMigrations`: run each listed migration whose version satisfies the
selection predicate, applying its returned patch immediately, aborting
the whole run on the first throw.  Also returns the versions of the
steps that executed. -/
def runList (cur : String) (stored : Option JSVal) (pred : String → Bool) :
    List MigrationM → StorageState → Except String (StorageState × List String)
  | [], st => .ok (st, [])
  | m :: rest, st =>
    if pred m.version then
      match m.migrate cur stored st with
      | .error e => .error e
      | .ok r =>
        let st' := match r with
          | none => st
          | some res => applyResult st res
        match runList cur stored pred rest st' with
        | .error e => .error e
        | .ok (s, l) => .ok (s, m.version :: l)
    else runList cur stored pred rest st

/-- `runMigrations` of `src/shared/lib/migration.ts`, parameterized by
the platform-reported current version and the configured migration
list.  Returns the final storage together with the versions of the
migration steps that ran, or the propagated failure. -/
def runMigrations (cur : String) (migs : List MigrationM) (st : StorageState) :
    Except String (StorageState × List String) :=
  match migs with
  | [] =>
    match getStoredVersion st with
    | some sv =>
      if 0 < compareVersions sv (.str cur) then .ok (st, [])
      else if compareVersions sv (.str cur) ≠ 0 then .ok (setVersion st cur, [])
      else .ok (st, [])
    | none => .ok (setVersion st cur, [])
  | _ :: _ =>
    match getStoredVersion st with
    | none =>
      match runList cur none
          (fun v => compareVersions (.str v) (.str cur) ≤ 0) migs st with
      | .error e => .error e
      | .ok (s, l) => .ok (setVersion s cur, l)
    | some sv =>
      if compareVersions sv (.str cur) = 0 then .ok (st, [])
      else if 0 < compareVersions sv (.str cur) then .ok (st, [])
      else
        match runList cur (some sv)
            (fun v => decide (0 < compareVersions (.str v) sv) &&
                      decide (compareVersions (.str v) (.str cur) ≤ 0)) migs st with
        | .error e => .error e
        | .ok (s, l) => .ok (setVersion s cur, l)

/-! ## The shipped `customMigrations` list -/

/-- JSVal-level counterpart of the per-action legacy-ignore rewrite,
for actions held in raw stored form. -/
def migrateActionVal (a : JSVal) : JSVal :=
  match a with
  | .obj f =>
    match getKey f "options" with
    | some (.obj o) =>
      match getKey o "ignore" with
      | some (.arr ig) =>
        match ig with
        | [mode, .str s] =>
          .obj (setKey f "options" (.obj (setKey o "ignore" (.arr (newIgnore mode s)))))
        | _ => a
      | _ => a
    | _ => a
  | _ => a

/-- Whether a raw stored action's `ignore` is in the legacy shape. -/
def actionHasLegacyIgnore (a : JSVal) : Bool :=
  match a with
  | .obj f =>
    match getKey f "options" with
    | some (.obj o) =>
      match getKey o "ignore" with
      | some (.arr ig) => isLegacyIgnoreShape ig
      | _ => false
    | _ => false
  | _ => false

/-- Modelled from the spec: the repository's `customMigrations` list is
imported by `runMigrations` from `@/shared/config` but its definition
is not among the provided sources (only this reader and a test that
mocks it are).  Per §4.9 of the specification it holds the single
shipped migration, which rewrites every stored action's legacy
`[mode, commaSeparatedString]` ignore value into the
`[mode, ...keywords]` shape and "only emits a patch if at least one
action's `ignore` field was actually in the legacy shape"; it never
throws (the spec's idempotence requirement).  This is its patch
computation over the raw stored `sync.settings` value. -/
def legacyIgnorePatch (st : StorageState) : Option MigResult :=
  match getKey st.sync "settings" with
  | some (.obj settingsFields) =>
    match getKey settingsFields "actions" with
    | some (.obj actionFields) =>
      if actionFields.any (fun p => actionHasLegacyIgnore p.2) then
        let migrated := actionFields.map (fun p => (p.1, migrateActionVal p.2))
        some ⟨[("settings",
                .obj (setKey settingsFields "actions" (.obj migrated)))], []⟩
      else none
    | _ => none
  | _ => none

/-- Modelled from the spec: the shipped migration list — one entry
carrying the legacy-ignore rewrite.  The spec does not fix the entry's
version tag; `1.2.0` (the version its §8 example runs under) is used,
and no theorem below depends on the choice. -/
def customMigrations : List MigrationM :=
  [{ version := "1.2.0", migrate := fun _ _ st => .ok (legacyIgnorePatch st) }]

/-! ## Message-bus send with timeout
(`createMessenger.sendToBackground` of `src/shared/lib/messaging.ts`) -/

/-- The settlement state of the promise a `sendTo*` call returns. -/
inductive SendOutcome where
  | pending : SendOutcome
  | resolved : JSVal → SendOutcome
  | rejected : String → SendOutcome

/-- A promise settles only once: `resolve`/`reject` on an
already-settled promise is ignored (and raises nothing). -/
def settleTo (cur new : SendOutcome) : SendOutcome :=
  match cur with
  | .pending => new
  | o => o

/-- The sender-side state of one `sendToBackground` call: the promise
and whether the timeout timer is still pending. -/
structure MessengerState where
  outcome : SendOutcome
  timerActive : Bool

/-- The two asynchronous events that can reach the call: the timeout
timer firing, and the platform response callback firing (with the
`chrome.runtime.lastError` message, if the platform reports a delivery
failure, and the response value). -/
inductive MEvent where
  | timerFires : MEvent
  | callbackFires : Option String → JSVal → MEvent

/-- One event against the closure logic of `sendToBackground`: the
timer, when still pending, rejects with `"Message timeout"`; the
callback first clears the timer (`clearTimeout`), then rejects with the
platform failure message or resolves with the response — in every case
subject to settle-once promise semantics. -/
def stepMessenger (st : MessengerState) (e : MEvent) : MessengerState :=
  match e with
  | .timerFires =>
    if st.timerActive then ⟨settleTo st.outcome (.rejected "Message timeout"), false⟩
    else st
  | .callbackFires err res =>
    match err with
    | some m => ⟨settleTo st.outcome (.rejected m), false⟩
    | none => ⟨settleTo st.outcome (.resolved res), false⟩

/-- Run one `sendToBackground(type, payload, opts)` call against the
time-ordered list of events it observes; `hasTimeout` is whether
`opts.timeoutMs` was given (which arms the timer). -/
def runMessenger (hasTimeout : Bool) (events : List MEvent) : MessengerState :=
  events.foldl stepMessenger ⟨.pending, hasTimeout⟩

/-! ## Concrete fixtures and spec-side predicates used by the theorems -/

/-- The amended well-formedness condition on the stored pair read by
`load()`: the stored version is a truthy string and the stored settings
value is a truthy object. -/
def storedStateOk (ver raw : Option JSVal) : Bool :=
  verIsTruthyString ver &&
  (match raw with
   | some r => jsTruthy r && jsIsObjectType r
   | none => false)

/-- A settings record holding one action bound to the left mouse button
with the empty-string key — the value the options page stores for the
"(None)" modifier-key choice. -/
def settingsNoKeyAction : SettingsM :=
  ⟨[("101", ⟨0, "", .tabs, "#FFA500", {}⟩)], []⟩

/-- An action whose stored `ignore` is in the legacy
`[mode, commaSeparatedString]` shape. -/
def actLegacyIgnore : ActionM :=
  ⟨0, "z", .tabs, "#FFA500", { ignore := some [.num 0, .str "foo, bar ,baz"] }⟩

/-- An action whose stored `ignore` is already `[0, "foo"]`. -/
def actNewIgnore : ActionM :=
  ⟨0, "z", .tabs, "#FFA500", { ignore := some [.num 0, .str "foo"] }⟩

/-- An action whose stored `ignore` is a three-element keyword array —
not the legacy shape. -/
def actThreeIgnore : ActionM :=
  ⟨0, "z", .tabs, "#FFA500", { ignore := some [.num 0, .str "a", .str "b"] }⟩

/-! # Helper lemmas -/

/-- Composing the two URL filters appearing in the seen-set
correspondence proof. -/
theorem filter_url_cons (ls : List Link) (l : Link) (seen : List String) :
    ((ls.filter (fun x => decide (x.url ∉ seen))).filter
        (fun x => decide (x.url ≠ l.url)))
      = ls.filter (fun x => decide (x.url ∉ l.url :: seen)) := by
  induction ls with
  | nil => rfl
  | cons y ys ih =>
    by_cases h1 : y.url ∈ seen
    · rw [List.filter_cons_of_neg (by simp [h1]),
          List.filter_cons_of_neg (by simp [h1])]
      exact ih
    · by_cases h2 : y.url = l.url
      · rw [List.filter_cons_of_pos (by simp [h1]),
            List.filter_cons_of_neg (by simp [h2]),
            List.filter_cons_of_neg (by simp [h2])]
        exact ih
      · rw [List.filter_cons_of_pos (by simp [h1]),
            List.filter_cons_of_pos (by simp [h2]),
            List.filter_cons_of_pos (by simp [h1, h2])]
        rw [ih]

/-- The seen-set loop of `uniqueLinks` agrees with the
keep-first-occurrence reference on the links whose URL is not yet seen. -/
theorem uniqueLinksGo_eq_dedup (ls : List Link) :
    ∀ seen : List String,
      uniqueLinksGo seen ls
        = dedupByUrlSpec (ls.filter (fun x => decide (x.url ∉ seen))) := by
  induction ls with
  | nil => intro seen; simp [uniqueLinksGo, dedupByUrlSpec]
  | cons l ls ih =>
    intro seen
    by_cases h : l.url ∈ seen
    · rw [uniqueLinksGo, if_pos h, List.filter_cons_of_neg (by simp [h])]
      exact ih seen
    · rw [uniqueLinksGo, if_neg h, List.filter_cons_of_pos (by simp [h])]
      rw [dedupByUrlSpec]
      rw [ih (l.url :: seen), filter_url_cons]

/-- `uniqueLinks` computes exactly the specification's "keep the first
occurrence of each URL, in original order" deduplication. -/
theorem uniqueLinks_eq_dedup (ls : List Link) :
    uniqueLinks ls = dedupByUrlSpec ls := by
  rw [uniqueLinks, uniqueLinksGo_eq_dedup ls []]
  congr 1
  apply List.filter_eq_self.mpr
  intro x _
  simp

/-- `cmpParts` is reflexive-zero. -/
theorem cmpParts_self (l : List Int) : cmpParts l l = 0 := by
  induction l with
  | nil => rfl
  | cons a as ih => simp [cmpParts, ih]

/-- `compareVersions` reports equality on identical inputs. -/
theorem compareVersions_self (v : JSVal) : compareVersions v v = 0 :=
  cmpParts_self _

/-- Reading back a freshly written storage key. -/
theorem getKey_setKey (m : List (String × JSVal)) (k : String) (v : JSVal) :
    getKey (setKey m k v) k = some v := by
  induction m with
  | nil => simp [setKey, getKey]
  | cons p rest ih =>
    obtain ⟨k', v'⟩ := p
    by_cases h : k' = k
    · simp [setKey, getKey, h]
    · simp [setKey, getKey, h, ih]

/-- After `setVersion`, the stored version reads back as the (nonempty)
current-version string. -/
theorem getStoredVersion_setVersion (st : StorageState) (cur : String)
    (h : cur ≠ "") :
    getStoredVersion (setVersion st cur) = some (.str cur) := by
  simp [getStoredVersion, setVersion, getKey_setKey, jsTruthy, h]

/-- With a nonempty migration list and the stored version equal to the
current one, `runMigrations` is a no-op that runs no step. -/
theorem runMigrations_at_current (cur : String) (m0 : MigrationM)
    (migs : List MigrationM) (st : StorageState)
    (h : getStoredVersion st = some (.str cur)) :
    runMigrations cur (m0 :: migs) st = .ok (st, []) := by
  simp [runMigrations, h, compareVersions_self]

/-- A second consecutive `runMigrations` after a successful first run
is a no-op, for any nonempty migration list: the first run either left
the downgrade/equal state untouched or recorded the current version,
and the second run then takes the stored-equals-current branch. -/
theorem runMigrations_second_run (cur : String) (m0 : MigrationM)
    (migs : List MigrationM) (st st1 : StorageState) (log1 : List String)
    (hcur : cur ≠ "")
    (h1 : runMigrations cur (m0 :: migs) st = .ok (st1, log1)) :
    runMigrations cur (m0 :: migs) st1 = .ok (st1, []) := by
  rcases hsv : getStoredVersion st with _ | sv
  · -- fresh install: the first run recorded the current version
    simp only [runMigrations, hsv] at h1
    rcases hr : runList cur none
        (fun v => decide (compareVersions (.str v) (.str cur) ≤ 0)) (m0 :: migs) st with e | ⟨s0, l0⟩
    · rw [hr] at h1; exact absurd h1 (by simp)
    · rw [hr] at h1
      simp only [Except.ok.injEq, Prod.mk.injEq] at h1
      obtain ⟨hst, _⟩ := h1
      subst hst
      exact runMigrations_at_current cur m0 migs _
        (getStoredVersion_setVersion s0 cur hcur)
  · by_cases hc0 : compareVersions sv (.str cur) = 0
    · simp only [runMigrations, hsv, hc0, if_true, Except.ok.injEq, Prod.mk.injEq] at h1
      obtain ⟨hst, _⟩ := h1
      subst hst
      simp [runMigrations, hsv, hc0]
    · by_cases hcg : 0 < compareVersions sv (.str cur)
      · simp only [runMigrations, hsv, hc0, hcg, if_true, if_false,
          Except.ok.injEq, Prod.mk.injEq] at h1
        obtain ⟨hst, _⟩ := h1
        subst hst
        simp [runMigrations, hsv, hc0, hcg]
      · simp only [runMigrations, hsv, hc0, hcg, if_false] at h1
        rcases hr : runList cur (some sv)
            (fun v => decide (0 < compareVersions (.str v) sv) &&
                      decide (compareVersions (.str v) (.str cur) ≤ 0)) (m0 :: migs) st with e | ⟨s0, l0⟩
        · rw [hr] at h1; exact absurd h1 (by simp)
        · rw [hr] at h1
          simp only [Except.ok.injEq, Prod.mk.injEq] at h1
          obtain ⟨hst, _⟩ := h1
          subst hst
          exact runMigrations_at_current cur m0 migs _
            (getStoredVersion_setVersion s0 cur hcur)

/-! # Claim theorems -/

/-- C1: the background `LINKCLUMP_ACTIVATE` handler, on a payload with
`urls` and `setting` present, first drops entries whose `url` or
`title` is not a string; with `options.block` it deduplicates by URL
keeping the first occurrence of each URL in original order (with
`block` false everything passes through in original order); an empty
result responds `{ok: true}` with no action; and with
`options.reverse` the per-action handler receives the deduplicated
list reversed. -/
theorem activate_filters_dedups_reverses
    (urls : List (Option RawLink)) (setting : ActionM) :
    activateHandler (some ⟨some urls, some setting⟩) =
      (let wf := filterWellFormed urls
       let d := if optTrue setting.options.block then dedupByUrlSpec wf else wf
       if d.isEmpty then ⟨true, none⟩
       else ⟨true, some (if optTrue setting.options.reverse then d.reverse else d)⟩) := by
  show (let l1 := filterWellFormed urls
        let l2 := if optTrue setting.options.block then uniqueLinks l1 else l1
        if l2.isEmpty then (⟨true, none⟩ : ActivateResult)
        else ⟨true, some (if optTrue setting.options.reverse then l2.reverse else l2)⟩) = _
  simp only [uniqueLinks_eq_dedup]

/-- C10: an activate message whose payload is absent, lacks `urls` or
lacks `setting` is answered `{ok: false}` with no per-action dispatch
(no tab, window, bookmark, message or storage effect). -/
theorem activate_rejects_malformed_payload :
    activateHandler none = ⟨false, none⟩
  ∧ (∀ s : Option ActionM, activateHandler (some ⟨none, s⟩) = ⟨false, none⟩)
  ∧ (∀ u : Option (List (Option RawLink)),
       activateHandler (some ⟨u, none⟩) = ⟨false, none⟩) := by
  refine ⟨rfl, fun s => ?_, fun u => ?_⟩
  · cases s <;> rfl
  · cases u <;> rfl

/-- C8: copy-format rendering — `formatLink` renders
`{url: "https://e.com", title: "E"}` as `"E\thttps://e.com\n"` under
format 0, `"https://e.com\n"` under format 1 and
`"[E](https://e.com)\n"` under format 6; and under format 5 the copy
handler produces one `<li><a …>…</a></li>\n` entry per link,
concatenated and wrapped in a single `<ul>…</ul>`. -/
theorem copy_format_rendering :
    formatLink ⟨"https://e.com", "E"⟩ 0 = "E\thttps://e.com\n"
  ∧ formatLink ⟨"https://e.com", "E"⟩ 1 = "https://e.com\n"
  ∧ formatLink ⟨"https://e.com", "E"⟩ 6 = "[E](https://e.com)\n"
  ∧ (∀ urls : List Link,
       handleCopyText urls (some 5) =
         "<ul>\n" ++
           (urls.map (fun l =>
             "<li><a href=\"" ++ l.url ++ "\">" ++ l.title ++ "</a></li>\n")).foldl
             (· ++ ·) "" ++
         "</ul>\n") := by
  refine ⟨rfl, rfl, rfl, fun urls => ?_⟩
  rw [List.foldl_map]
  rfl

/-- C9: with `options.timeoutMs` set, a timer expiry before the
platform callback rejects the returned promise with the failure
message `"Message timeout"`, and a callback firing afterwards is
ignored (the settled promise is untouched and no further error is
raised); a callback firing before the timer cancels the pending timer
and resolves with the response, or rejects with the platform's
delivery-failure message when one is reported. -/
theorem sendToBackground_timeout_race :
    (∀ (err : Option String) (res : JSVal),
        runMessenger true [.timerFires, .callbackFires err res]
          = ⟨.rejected "Message timeout", false⟩)
  ∧ (∀ res : JSVal,
        runMessenger true [.callbackFires none res, .timerFires]
          = ⟨.resolved res, false⟩)
  ∧ (∀ (m : String) (res : JSVal),
        runMessenger true [.callbackFires (some m) res, .timerFires]
          = ⟨.rejected m, false⟩) := by
  refine ⟨fun err res => ?_, fun res => rfl, fun m res => rfl⟩
  cases err <;> rfl

/-- C2 (code bug): `Core.allowSelection` compares the configured key
against `keyPressed` with strict equality, and `keyPressed` is `null`
whenever no key is held, so the state of no key being pressed does NOT
match an action configured with the empty-string key (the value the
options page stores for its "(None)" modifier choice): with one action
bound to mouse button 0 and key `""`, button 0 pressed and no key
held, `allowSelection` is `false`, although an action with that very
mouse button and the empty-string key is configured. -/
theorem allowSelection_null_key_never_matches_empty :
    (settingsNoKeyAction.actions.any (fun p =>
        decide (p.2.mouse = 0) && decide (p.2.key = ""))) = true
  ∧ allowSelection (some settingsNoKeyAction) (some 0) none = false :=
  ⟨rfl, rfl⟩

/-- C7: restricted-URL classification — an absent URL is restricted;
`chrome://extensions` is restricted (disallowed scheme);
`https://chrome.google.com/webstore/detail/x` is restricted
(restricted-host match on the normalized form);
`https://example.com/` is allowed; an http(s)-prefixed string that
fails URL parsing is restricted; and every URL whose scheme is neither
a disallowed scheme nor `http`/`https` is restricted (default-deny). -/
theorem isRestrictedUrl_classification :
    isRestrictedUrl none = true
  ∧ isRestrictedUrl (some "chrome://extensions") = true
  ∧ isRestrictedUrl (some "https://chrome.google.com/webstore/detail/x") = true
  ∧ isRestrictedUrl (some "https://example.com/") = false
  ∧ isRestrictedUrl (some "https://") = true
  ∧ (∀ s : String, schemeOf s ∉ restrictedSchemes →
       schemeOf s ≠ "http" → schemeOf s ≠ "https" →
       isRestrictedUrl (some s) = true) := by
  refine ⟨rfl, by decide, by decide, by decide, by decide, fun s h1 h2 h3 => ?_⟩
  by_cases hs : s = ""
  · simp [isRestrictedUrl, hs]
  · simp [isRestrictedUrl, hs, h1, h2, h3]

/-- Witness for C7: the default-deny conjunct applied at the concrete
unrecognized-scheme URL `foo:bar`. -/
theorem isRestrictedUrl_classification_witness :
    isRestrictedUrl (some "foo:bar") = true :=
  isRestrictedUrl_classification.2.2.2.2.2 "foo:bar" (by decide) (by decide) (by decide)

/-- C3: the settings migration rewrites a stored action whose
`options.ignore` is the legacy `[0, "foo, bar ,baz"]` pair into
`[0, "foo", "bar", "baz"]` (split on commas, tokens trimmed, empty
tokens dropped); leaves an action already holding `[0, "foo"]` with
that value unchanged; and changes no action whose `ignore` field is
not in the legacy two-element shape. -/
theorem migrate_legacy_ignore_rewrite :
    (migrateAction actLegacyIgnore).options.ignore
        = some [.num 0, .str "foo", .str "bar", .str "baz"]
  ∧ migrateAction actNewIgnore = actNewIgnore
  ∧ (∀ a : ActionM, a.options.ignore = none → migrateAction a = a)
  ∧ (∀ (a : ActionM) (ig : List JSVal), a.options.ignore = some ig →
       isLegacyIgnoreShape ig = false → migrateAction a = a) := by
  refine ⟨rfl, rfl, fun a h => ?_, fun a ig h hsh => ?_⟩
  · simp only [migrateAction, h]
  · simp only [migrateAction, h]
    rcases ig with _ | ⟨x, ig⟩
    · rfl
    rcases ig with _ | ⟨y, ig⟩
    · rfl
    rcases ig with _ | ⟨z, ig⟩
    · cases y with
      | str s => exact absurd hsh (by simp [isLegacyIgnoreShape])
      | undef => rfl
      | null => rfl
      | bool b => rfl
      | num n => rfl
      | arr xs => rfl
      | obj fs => rfl
    · cases y <;> rfl

/-- Witness for C3: the not-legacy-shape conjunct applied at the
concrete three-element `ignore` value `[0, "a", "b"]`. -/
theorem migrate_legacy_ignore_rewrite_witness :
    migrateAction actThreeIgnore = actThreeIgnore :=
  migrate_legacy_ignore_rewrite.2.2.2 actThreeIgnore
    [.num 0, .str "a", .str "b"] rfl rfl

/-- C6 counterexample: the claim says that whenever the stored version
is a string and the stored settings value a non-null object, `load()`
returns the stored settings unchanged — but for the stored version
`""` (a string) the guard `!ver` still triggers re-initialization, so
`load()` returns the defaults and writes, not the stored object. -/
theorem load_empty_string_version_counterexample :
    loadSettings (.obj []) "2" false (some (.str "")) (some (.obj [("a", .null)]))
      ≠ (JSVal.obj [("a", .null)], none) :=
  fun h => Option.noConfusion (congrArg Prod.snd h)

/-- C6 (amended): `load()` returns exactly the defaults and persists
them together with the current version whenever the read throws, or
the stored version is absent, not a string, or the empty string, or
the stored settings value is absent or not a truthy object; otherwise
(version a nonempty string, settings a non-null object) it returns the
stored settings unchanged with no write and no further shape
validation. -/
theorem load_fallback_characterization :
    (∀ (d : JSVal) (cv : String) (ver raw : Option JSVal),
        loadSettings d cv true ver raw = initWrite d cv)
  ∧ (∀ (d : JSVal) (cv : String) (rt : Bool) (ver raw : Option JSVal),
        storedStateOk ver raw = false → loadSettings d cv rt ver raw = initWrite d cv)
  ∧ (∀ (d : JSVal) (cv : String) (ver : Option JSVal) (r : JSVal),
        storedStateOk ver (some r) = true →
          loadSettings d cv false ver (some r) = (r, none)) := by
  refine ⟨fun d cv ver raw => rfl, fun d cv rt ver raw h => ?_, fun d cv ver r h => ?_⟩
  · cases rt with
    | true => rfl
    | false =>
      by_cases hv : verIsTruthyString ver = true
      · simp only [storedStateOk, hv, Bool.true_and] at h
        cases raw with
        | none => simp [loadSettings, hv]
        | some r =>
          have h' : (jsTruthy r && jsIsObjectType r) = false := h
          simp [loadSettings, hv, h']
      · have hv' : verIsTruthyString ver = false := by
          revert hv; cases verIsTruthyString ver <;> simp
        simp [loadSettings, hv']
  · simp only [storedStateOk, Bool.and_eq_true] at h
    simp [loadSettings, h.1, h.2]

/-- Witness for C6 (amended): the fallback conjunct applied at a
stored version `"2"` with a stored settings value that is a number. -/
theorem load_fallback_characterization_witness :
    loadSettings (.obj []) "2" false (some (.str "2")) (some (.num 5))
      = initWrite (.obj []) "2" :=
  load_fallback_characterization.2.1 (.obj []) "2" false
    (some (.str "2")) (some (.num 5)) rfl

/-- C4: `runMigrations` is idempotent — for any starting storage state
and fixed (nonempty) current version, if a first run over the shipped
migration list succeeds, a second consecutive run returns the same
storage unchanged and executes no migration step, so the stored
`sync.version` is equal after both runs and the second run writes
nothing. -/
theorem runMigrations_idempotent (st st1 : StorageState) (cur : String)
    (log1 : List String) (hcur : cur ≠ "")
    (h1 : runMigrations cur customMigrations st = .ok (st1, log1)) :
    runMigrations cur customMigrations st1 = .ok (st1, []) :=
  runMigrations_second_run cur _ [] st st1 log1 hcur h1

/-- Witness for C4: from empty storage under current version `1.2.0`,
the first run records the version (running the shipped migration), and
the second run is a no-op. -/
theorem runMigrations_idempotent_witness :
    runMigrations "1.2.0" customMigrations ⟨[("version", JSVal.str "1.2.0")], []⟩
      = .ok (⟨[("version", JSVal.str "1.2.0")], []⟩, []) :=
  runMigrations_idempotent ⟨[], []⟩ ⟨[("version", JSVal.str "1.2.0")], []⟩
    "1.2.0" ["1.2.0"] (by decide) (by rfl)

/-- C5: downgrade non-destruction — whenever the stored version is
truthy and compares strictly newer than the current version,
`runMigrations` executes no migration step and leaves all storage,
including the stored `sync.version`, unchanged, for every migration
list (empty or not). -/
theorem runMigrations_downgrade_noop (st : StorageState) (cur : String)
    (migs : List MigrationM) (sv : JSVal)
    (h : getStoredVersion st = some sv)
    (hgt : 0 < compareVersions sv (.str cur)) :
    runMigrations cur migs st = .ok (st, []) := by
  cases migs with
  | nil => simp [runMigrations, h, hgt]
  | cons m0 rest =>
    have hne : compareVersions sv (.str cur) ≠ 0 := by omega
    simp [runMigrations, h, hne, hgt]

/-- Witness for C5: stored version `2.0.0`, current version `1.2.0`,
with the shipped migration list — storage is returned unchanged and no
step runs. -/
theorem runMigrations_downgrade_noop_witness :
    runMigrations "1.2.0" customMigrations ⟨[("version", JSVal.str "2.0.0")], []⟩
      = .ok (⟨[("version", JSVal.str "2.0.0")], []⟩, []) :=
  runMigrations_downgrade_noop ⟨[("version", JSVal.str "2.0.0")], []⟩ "1.2.0"
    customMigrations (JSVal.str "2.0.0") rfl (by decide)
